import Mathlib

/-!
Shallow embedding of the booking core of `src/app.py` (citas-unidades).

Strings are modelled as `List Char`.  Python `str.strip()` becomes `pyStrip`,
`str.lstrip("'")` becomes `dropApos`, `str.upper()` becomes `pyUpper`.
The Google-Sheets worksheet is modelled as a `List Registro` of raw rows;
`read_all` is the normalising read, `append_cita` the appending write and
`update_estado_por_row` the single-cell status write, exactly as in the source.
-/

abbrev Str := List Char

/-- Whitespace characters removed by Python `str.strip()`. -/
def isPyWs (c : Char) : Bool :=
  c == ' ' || c == '\t' || c == '\n' || c == '\r' || c == '\x0b' || c == '\x0c'

/-- The apostrophe character used by Sheets as a force-text marker. -/
def apos : Char := Char.ofNat 39

def trimLeft (s : Str) : Str := s.dropWhile isPyWs

def trimRight (s : Str) : Str := (s.reverse.dropWhile isPyWs).reverse

/-- Python `str.strip()`. -/
def pyStrip (s : Str) : Str := trimRight (trimLeft s)

/-- Python `str.lstrip("'")`. -/
def dropApos (s : Str) : Str := s.dropWhile (fun c => c == apos)

/-- Python `str.upper()` (ASCII letters, as used for plate numbers). -/
def pyUpper (s : Str) : Str := s.map Char.toUpper

/-- `app.py` `_norm_str`: coerce to text and strip surrounding whitespace. -/
def _norm_str (s : Str) : Str := pyStrip s

/-- `app.py` `_norm_date_text`: strip, remove leading apostrophes, strip again. -/
def _norm_date_text (s : Str) : Str := pyStrip (dropApos (_norm_str s))

/-- Status literal "CANCELADO" (the spec's CANCELLED). -/
def cancelado : Str := "CANCELADO".data

/-- Status literal "EN COLA" (the spec's QUEUED). -/
def enCola : Str := "EN COLA".data

/-- One stored row of the `citas` worksheet, fields as in `COLUMNAS`. -/
structure Registro where
  id_ticket : Str := []
  turno : Str := []
  horario_turno : Str := []
  placa_tracto : Str := []
  placa_carreta : Str := []
  chofer_nombre : Str := []
  licencia : Str := []
  transporte : Str := []
  tipo_operacion : Str := []
  fecha_cita : Str := []
  hora_cita : Str := []
  observacion : Str := []
  estado : Str := []
  creado_en : Str := []
  registrado_por : Str := []
  telefono_registro : Str := []
deriving DecidableEq, Repr, Inhabited

/-- The per-row normalisation that `read_all` applies to the dataframe. -/
def normRow (r : Registro) : Registro :=
  { r with
    fecha_cita := _norm_date_text r.fecha_cita,
    turno := _norm_str r.turno,
    estado := _norm_str r.estado }

/-- `app.py` `read_all`: fetch all records and normalise fecha/turno/estado. -/
def read_all (rows : List Registro) : List Registro := rows.map normRow

/-- One entry of `TURNOS_BASE`. -/
structure Turno where
  turno : Str
  horario : Str
  capacidad : Int
deriving DecidableEq, Repr

/-- `app.py` `TURNOS_BASE`: the static slot catalog. -/
def TURNOS_BASE : List Turno :=
  [ { turno := "Turno 1".data, horario := "08:00 - 10:00".data, capacidad := 4 },
    { turno := "Turno 2".data, horario := "10:00 - 12:00".data, capacidad := 4 },
    { turno := "Turno 3".data, horario := "13:00 - 15:00".data, capacidad := 4 },
    { turno := "Turno 4".data, horario := "15:00 - 16:30".data, capacidad := 4 } ]

/-- A calendar date, of which the core only inspects the weekday (Monday = 0). -/
structure Fecha where
  weekday : Nat
deriving DecidableEq, Repr

/-- `app.py` `turnos_para_fecha`: Saturday (weekday 5) offers only 2 slots. -/
def turnos_para_fecha (fecha_dt : Fecha) : List Turno :=
  if fecha_dt.weekday == 5 then TURNOS_BASE.take 2 else TURNOS_BASE

/-- The row filter used by `cupos_disponibles`: normalised date and slot match. -/
def matchesFechaTurno (fecha turno : Str) (r : Registro) : Bool :=
  _norm_date_text r.fecha_cita == _norm_date_text fecha &&
    _norm_str r.turno == _norm_str turno

/-- Number of rows of `df` matching (fecha, turno) whose estado is not
CANCELADO: the `usados` computed inside `cupos_disponibles`. -/
def usadosEn (df : List Registro) (fecha turno : Str) : Nat :=
  ((df.filter (matchesFechaTurno fecha turno)).filter
      (fun r => !(r.estado == cancelado))).length

/-- `app.py` `cupos_disponibles`: remaining capacity of (fecha, turno). -/
def cupos_disponibles (df : List Registro) (fecha turno : Str) (capacidad : Int) : Int :=
  if df = [] then capacidad
  else max 0 (capacidad - (usadosEn df fecha turno : Int))

/-- `app.py` `turnos_disponibles`: slots of the date's weekday with free
capacity, each as (turno, horario, libres, capacidad). -/
def turnos_disponibles (df : List Registro) (fecha_dt : Fecha) (fecha_str : Str) :
    List (Str × Str × Int × Int) :=
  (turnos_para_fecha fecha_dt).filterMap (fun t =>
    if 0 < cupos_disponibles df fecha_str t.turno t.capacidad then
      some (t.turno, t.horario, cupos_disponibles df fecha_str t.turno t.capacidad,
        t.capacidad)
    else none)

/-- 32-bit left rotation on naturals below 2 ^ 32. -/
def rotl32 (k x : Nat) : Nat := x * 2 ^ k % 2 ^ 32 + x / 2 ^ (32 - k)

/-- Big-endian 32-bit words of a byte list (length a multiple of 4). -/
def toWords : List Nat → List Nat
  | b0 :: b1 :: b2 :: b3 :: rest =>
      (((b0 * 256 + b1) * 256 + b2) * 256 + b3) :: toWords rest
  | _ => []

/-- Split into 64-byte chunks, structurally recursive on a fuel counter
bounded below by the number of chunks. -/
def chunks64Aux : Nat → List Nat → List (List Nat)
  | _, [] => []
  | 0, _ :: _ => []
  | fuel + 1, l => l.take 64 :: chunks64Aux fuel (l.drop 64)

/-- Split a byte list into 64-byte chunks. -/
def chunks64 (l : List Nat) : List (List Nat) := chunks64Aux l.length l

/-- SHA-1 message padding: 0x80, zeros, then the 64-bit big-endian bit length. -/
def sha1pad (msg : List Nat) : List Nat :=
  msg ++ [128] ++ List.replicate ((64 - (msg.length + 9) % 64) % 64) 0 ++
    (List.range 8).map (fun i => 8 * msg.length / 2 ^ (8 * (7 - i)) % 256)

/-- Extend 16 words of a chunk to the 80 words of the SHA-1 schedule. -/
def sha1extend (ws : List Nat) : Array Nat :=
  (List.range 64).foldl
    (fun w _ =>
      let n := w.size
      w.push (rotl32 1
        (((w.getD (n - 3) 0 ^^^ w.getD (n - 8) 0) ^^^ w.getD (n - 14) 0) ^^^
          w.getD (n - 16) 0)))
    ws.toArray

/-- SHA-1 round function. -/
def sha1f (t b c d : Nat) : Nat :=
  if t < 20 then b &&& c ||| (2 ^ 32 - 1 - b) &&& d
  else if t < 40 then (b ^^^ c) ^^^ d
  else if t < 60 then b &&& c ||| b &&& d ||| c &&& d
  else (b ^^^ c) ^^^ d

/-- SHA-1 round constants. -/
def sha1k (t : Nat) : Nat :=
  if t < 20 then 1518500249
  else if t < 40 then 1859775393
  else if t < 60 then 2400959708
  else 3395469782

/-- SHA-1 compression of one 64-byte chunk. -/
def sha1compress (h : Nat × Nat × Nat × Nat × Nat) (chunk : List Nat) :
    Nat × Nat × Nat × Nat × Nat :=
  let w := sha1extend (toWords chunk)
  let s := (List.range 80).foldl
    (fun st t =>
      let tmp :=
        (rotl32 5 st.1 + sha1f t st.2.1 st.2.2.1 st.2.2.2.1 + st.2.2.2.2 +
          sha1k t + w.getD t 0) % 2 ^ 32
      (tmp, st.1, rotl32 30 st.2.1, st.2.2.1, st.2.2.2.1))
    h
  ((h.1 + s.1) % 2 ^ 32, (h.2.1 + s.2.1) % 2 ^ 32, (h.2.2.1 + s.2.2.1) % 2 ^ 32,
    (h.2.2.2.1 + s.2.2.2.1) % 2 ^ 32, (h.2.2.2.2 + s.2.2.2.2) % 2 ^ 32)

/-- SHA-1 digest (20 bytes) of a byte list. -/
def sha1digest (msg : List Nat) : List Nat :=
  let f := (chunks64 (sha1pad msg)).foldl sha1compress
    (1732584193, 4023233417, 2562383102, 271733878, 3285377520)
  (([f.1, f.2.1, f.2.2.1, f.2.2.2.1, f.2.2.2.2]).map
    (fun x => [x / 2 ^ 24 % 256, x / 2 ^ 16 % 256, x / 2 ^ 8 % 256, x % 256])).flatten

/-- Lowercase hexadecimal digit. -/
def hexDigit (n : Nat) : Char :=
  if n < 10 then Char.ofNat (48 + n) else Char.ofNat (87 + n)

/-- Python `hashlib.sha1(...).hexdigest()`: lowercase hex of the digest. -/
def hexdigest (msg : List Nat) : Str :=
  ((sha1digest msg).map (fun b => [hexDigit (b / 16), hexDigit (b % 16)])).flatten

/-- UTF-8 bytes of an ASCII timestamp string (Python `str.encode()`). -/
def strBytes (s : Str) : List Nat := s.map Char.toNat

/-- `app.py` `generar_ticket`, with the observed clock value `now` made an
explicit argument: "TKT-" plus the first 8 uppercased hex characters of the
SHA-1 of `str(datetime.now())`. -/
def generar_ticket (now : Str) : Str :=
  "TKT-".data ++ pyUpper ((hexdigest (strBytes now)).take 8)

/-- The caller input of one registration attempt (tab "Registrar cita"),
with the generated ticket id and creation timestamp as explicit inputs. -/
structure Request where
  placa_tracto : Str := []
  placa_carreta : Str := []
  chofer : Str := []
  licencia : Str := []
  transporte : Str := []
  tipo : Str := []
  observacion : Str := []
  registrado_por : Str := []
  telefono_registro : Str := []
  fecha_str : Str := []
  turno_sel : Str := []
  horario_sel : Str := []
  cap_sel : Int := 0
  ticket : Str := []
  creado_en : Str := []
deriving DecidableEq, Repr, Inhabited

/-- The `data` dict assembled in the registration tab before `append_cita`. -/
def mkData (req : Request) : Registro :=
  { id_ticket := req.ticket,
    turno := req.turno_sel,
    horario_turno := req.horario_sel,
    placa_tracto := pyUpper (pyStrip req.placa_tracto),
    placa_carreta := pyUpper (pyStrip req.placa_carreta),
    chofer_nombre := pyStrip req.chofer,
    licencia := pyStrip req.licencia,
    transporte := pyStrip req.transporte,
    tipo_operacion := req.tipo,
    fecha_cita := req.fecha_str,
    hora_cita := [],
    observacion := pyStrip req.observacion,
    estado := enCola,
    creado_en := req.creado_en,
    registrado_por := pyStrip req.registrado_por,
    telefono_registro := pyStrip req.telefono_registro }

/-- The `lstrip("'")` applied by `append_cita` to non-empty text fields. -/
def lstripAposIfNonempty (v : Str) : Str := if v = [] then v else dropApos v

/-- `append_cita`'s copy of the row with apostrophes removed from
fecha_cita, creado_en and telefono_registro. -/
def aposFixRow (r : Registro) : Registro :=
  { r with
    fecha_cita := lstripAposIfNonempty r.fecha_cita,
    creado_en := lstripAposIfNonempty r.creado_en,
    telefono_registro := lstripAposIfNonempty r.telefono_registro }

/-- `app.py` `append_cita`: append one row (RAW) to the worksheet. -/
def append_cita (store : List Registro) (r : Registro) : List Registro :=
  store ++ [aposFixRow r]

/-- Outcome of one registration attempt. -/
inductive CreateResult where
  | validationError
  | slotFull
  | success
deriving DecidableEq, Repr

/-- The "Generar ticket y registrar" button handler: validate the required
fields, then re-read the store, recompute the remaining capacity and append.
Returns (outcome, resulting store, number of full-store reads performed). -/
def create (store : List Registro) (req : Request) :
    CreateResult × List Registro × Nat :=
  if req.placa_tracto = [] ∨ req.chofer = [] then
    (CreateResult.validationError, store, 0)
  else if pyStrip req.registrado_por = [] then
    (CreateResult.validationError, store, 0)
  else
    let df_now := read_all store
    let libres_now := cupos_disponibles df_now req.fecha_str req.turno_sel req.cap_sel
    if libres_now ≤ 0 then (CreateResult.slotFull, store, 1)
    else (CreateResult.success, append_cita store (mkData req), 1)

/-- Replace the estado field of the row at the given list index. -/
def setEstadoAt : List Registro → Nat → Str → List Registro
  | [], _, _ => []
  | r :: rest, 0, nuevo => { r with estado := nuevo } :: rest
  | r :: rest, i + 1, nuevo => r :: setEstadoAt rest i nuevo

/-- `app.py` `update_estado_por_row`: one `update_cell` write of the estado
column at sheet row `row_number` (header is row 1, data starts at row 2). -/
def update_estado_por_row (store : List Registro) (row_number : Nat)
    (nuevo_estado : Str) : List Registro :=
  setEstadoAt store (row_number - 2) nuevo_estado

/-- The admin tab's position resolution: one fresh `read_all`, rows keyed by
`id_ticket`; an edit becomes a (sheet row, new estado) change when the ticket
exists and the estado differs. -/
def resolveCambios (store : List Registro) (edits : List (Str × Str)) :
    List (Nat × Str) :=
  let df := read_all store
  edits.filterMap (fun p =>
    match df.findIdx? (fun r => r.id_ticket == p.1) with
    | some j => if (df.getD j default).estado = p.2 then none else some (j + 2, p.2)
    | none => none)

/-- The "Guardar cambios de estado" button handler: resolve the changes from
one read, then call `update_estado_por_row` once per change.  Returns the
resulting store and the number of cell writes issued. -/
def guardar_cambios (store : List Registro) (edits : List (Str × Str)) :
    List Registro × Nat :=
  ((resolveCambios store edits).foldl
      (fun s c => update_estado_por_row s c.1 c.2) store,
    (resolveCambios store edits).length)

/-- Store-level failure classes of the spec's taxonomy. -/
inductive StoreErr where
  | transient
  | permanent
deriving DecidableEq, Repr

/-- `read_all` issues exactly one `get_all_records` call with no retry
wrapper: given the outcome sequence successive attempts would observe, the
code only ever sees the first outcome. -/
def read_all_call (attempts : List (Except StoreErr (List Registro))) :
    Except StoreErr (List Registro) :=
  match attempts with
  | [] => Except.error StoreErr.transient
  | a :: _ => a

/-- `append_cita` issues exactly one `append_row` call with no retry wrapper:
only the first attempt outcome is observed (`none` = success). -/
def append_call (attempts : List (Option StoreErr)) : Option StoreErr :=
  match attempts with
  | [] => none
  | a :: _ => a

/-- Operations of the booking lifecycle: a registration attempt through the
create handler, or a cancellation through `update_estado_por_row`. -/
inductive Op where
  | create (req : Request)
  | cancel (row_number : Nat)

/-- Sequential execution of one operation against the store. -/
def step (store : List Registro) : Op → List Registro
  | Op.create req => (create store req).2.1
  | Op.cancel rn => update_estado_por_row store rn cancelado

/-- Run a sequence of operations starting from the empty store. -/
def run (ops : List Op) : List Registro := ops.foldl step []

/-- A slot-name string free of surrounding whitespace. -/
abbrev CleanTurnoStr (v : Str) : Prop := trimLeft v = v ∧ trimRight v = v

/-- A date string free of surrounding whitespace and leading apostrophes,
as produced by `fmt_fecha` ("YYYY-MM-DD"). -/
abbrev CleanFechaStr (v : Str) : Prop :=
  trimLeft v = v ∧ trimRight v = v ∧ dropApos v = v

/-- A well-formed registration request: the date is a formatted calendar date
and the chosen slot is a catalog slot carrying its own capacity. -/
abbrev ReqOK (req : Request) : Prop :=
  CleanFechaStr req.fecha_str ∧
    ∃ t ∈ TURNOS_BASE, req.turno_sel = t.turno ∧ req.cap_sel = t.capacidad

/-- A string consisting only of Python whitespace. -/
abbrev AllWs (w : Str) : Prop := ∀ c ∈ w, isPyWs c = true

/-- A stored date value carrying the formatting artifacts the spec names:
leading whitespace, a run of force-text apostrophe markers, the clean value,
trailing whitespace. -/
def FechaDecor (raw clean : Str) : Prop :=
  ∃ w1 k w2, AllWs w1 ∧ AllWs w2 ∧
    raw = w1 ++ (List.replicate k apos ++ (clean ++ w2))

/-- A stored slot-name value carrying surrounding whitespace. -/
def TurnoDecor (raw clean : Str) : Prop :=
  ∃ w1 w2, AllWs w1 ∧ AllWs w2 ∧ raw = w1 ++ (clean ++ w2)

/-- A raw row that is a decorated version of a clean row on the fields
`cupos_disponibles` inspects. -/
def RowDecor (raw clean : Registro) : Prop :=
  FechaDecor raw.fecha_cita clean.fecha_cita ∧
    TurnoDecor raw.turno clean.turno ∧ raw.estado = clean.estado

/-- Query date used in concrete checks. -/
def fechaQ : Str := "2026-01-05".data

/-- Query slot name used in concrete checks. -/
def turnoQ : Str := "Turno 1".data

/-- A concrete queued booking on (fechaQ, turnoQ). -/
def regA : Registro :=
  { fecha_cita := "2026-01-05".data, turno := "Turno 1".data,
    estado := "EN COLA".data }

/-- `regA` with a force-text apostrophe marker on the slot name. -/
def regAposTurno : Registro := { regA with turno := apos :: "Turno 1".data }

/-- `regA` with its date and slot name carrying store formatting artifacts. -/
def regDecor : Registro :=
  { regA with
    fecha_cita := " ".data ++ (List.replicate 1 apos ++ ("2026-01-05".data ++ " ".data)),
    turno := " ".data ++ ("Turno 1".data ++ " ".data) }

/-- A decorated query date: a leading apostrophe marker. -/
def fechaQDecor : Str := [] ++ (List.replicate 1 apos ++ (fechaQ ++ []))

/-- A decorated query slot name: surrounding whitespace. -/
def turnoQDecor : Str := " ".data ++ (turnoQ ++ " ".data)

/-- A complete, valid registration request for (fechaQ, Turno 1). -/
def reqW : Request :=
  { placa_tracto := "abc-123".data, chofer := "Juan Perez".data,
    registrado_por := "Maria".data, fecha_str := "2026-01-05".data,
    turno_sel := "Turno 1".data, horario_sel := "08:00 - 10:00".data,
    cap_sel := 4, ticket := "TKT-93C8364C".data,
    creado_en := "2026-01-05 07:00:00".data }

/-- A request with every field empty (missing required fields). -/
def reqEmpty : Request := { }

/-- A request whose primary plate is blank (whitespace only). -/
def reqBlank : Request := { reqW with placa_tracto := " ".data }

/-- A stored booking with ticket id T1. -/
def regT1 : Registro :=
  { id_ticket := "T1".data, fecha_cita := "2026-01-05".data,
    turno := "Turno 1".data, estado := "EN COLA".data }

/-- A stored booking with ticket id T2. -/
def regT2 : Registro := { regT1 with id_ticket := "T2".data }

/-- A store holding two bookings. -/
def storeTwo : List Registro := [regT1, regT2]

/-- A batch of two status edits, one per stored ticket. -/
def editsTwo : List (Str × Str) :=
  [ ( "T1".data, "ATENDIDO".data ), ( "T2".data, "CANCELADO".data ) ]

/-- Attempt outcomes: two transient failures, then a successful read. -/
def attemptsTT : List (Except StoreErr (List Registro)) :=
  [Except.error StoreErr.transient, Except.error StoreErr.transient,
    Except.ok [regA]]

/-- A concrete timestamp string as produced by `str(datetime.now())`. -/
def tsW : Str := "2026-10-12 08:00:00.000001".data

/-- A Monday. -/
def fechaLunes : Fecha := { weekday := 0 }

/-- An operation sequence: two registrations and one cancellation. -/
def opsW : List Op := [Op.create reqW, Op.cancel 2, Op.create reqW]

/-- Length of `setEstadoAt` is that of the input store. -/
lemma setEstadoAt_length (s : List Registro) : ∀ i v,
    (setEstadoAt s i v).length = s.length := by
  induction s with
  | nil => intro i v; rfl
  | cons r rest ih =>
    intro i v
    cases i with
    | zero => simp [setEstadoAt]
    | succ i => simp [setEstadoAt, ih]

/-- `setEstadoAt` leaves every other position unchanged. -/
lemma setEstadoAt_getD (s : List Registro) : ∀ i v j, j ≠ i →
    (setEstadoAt s i v).getD j default = s.getD j default := by
  induction s with
  | nil => intro i v j _; rfl
  | cons r rest ih =>
    intro i v j h
    cases i with
    | zero =>
      cases j with
      | zero => exact absurd rfl h
      | succ j => simp [setEstadoAt]
    | succ i =>
      cases j with
      | zero => simp [setEstadoAt]
      | succ j =>
        simp only [setEstadoAt, List.getD_cons_succ]
        exact ih i v j (fun hh => h (by rw [hh]))

/-- C2 (corrected): with positive capacity, `cupos_disponibles` is
non-negative and equals capacity minus the non-cancelled matching count
clamped at zero (not the possibly negative plain difference). -/
theorem c2_remaining_clamped (df : List Registro) (f t : Str) (cap : Int)
    (hcap : 0 < cap) :
    0 ≤ cupos_disponibles df f t cap ∧
      cupos_disponibles df f t cap = max 0 (cap - (usadosEn df f t : Int)) := by
  unfold cupos_disponibles
  by_cases hdf : df = []
  · subst hdf
    rw [if_pos rfl]
    have h0 : usadosEn ([] : List Registro) f t = 0 := rfl
    rw [h0]
    push_cast
    rw [sub_zero]
    exact ⟨le_of_lt hcap, (max_eq_right (le_of_lt hcap)).symm⟩
  · rw [if_neg hdf]
    exact ⟨le_max_left 0 _, rfl⟩

/-- Witness for `c2_remaining_clamped` at a concrete input. -/
theorem c2_remaining_clamped_witness :
    (0 : Int) < 4 ∧
      (0 ≤ cupos_disponibles [] fechaQ turnoQ 4 ∧
        cupos_disponibles [] fechaQ turnoQ 4 =
          max 0 (4 - (usadosEn [] fechaQ turnoQ : Int))) :=
  ⟨by decide, c2_remaining_clamped [] fechaQ turnoQ 4 (by decide)⟩

/-- C2 counterexample: with capacity 1 and two matching non-cancelled rows,
the code returns 0 while capacity minus count is -1, so the function is not
"capacity minus count" on every record set. -/
theorem c2_counterexample :
    cupos_disponibles [regA, regA] fechaQ turnoQ 1 = 0 ∧
      (1 : Int) - (usadosEn [regA, regA] fechaQ turnoQ : Int) = -1 := by decide

/-- C4 (corrected): store calls are issued exactly once, with no retry
wrapper; an error on the first attempt surfaces immediately, whatever the
later attempt outcomes would have been. -/
theorem c4_no_retry (e : StoreErr)
    (rest : List (Except StoreErr (List Registro)))
    (arest : List (Option StoreErr)) :
    read_all_call (Except.error e :: rest) = Except.error e ∧
      append_call (some e :: arest) = some e :=
  ⟨rfl, rfl⟩

/-- C4 counterexample: a read failing twice with a transient error and
succeeding on the third attempt does NOT result in overall success — the
first transient error is surfaced to the caller. -/
theorem c4_counterexample :
    read_all_call attemptsTT = Except.error StoreErr.transient ∧
      (read_all_call attemptsTT).isOk = false :=
  ⟨rfl, rfl⟩

/-- C9: the ticket id generator is a deterministic function of the observed
clock value alone — equal timestamps give the identical id — and the id is
the fixed prefix "TKT-" followed by the first 8 uppercased hex characters of
the SHA-1 of the timestamp string. -/
theorem c9_ticket_deterministic (t1 t2 : Str) (h : t1 = t2) :
    generar_ticket t1 = generar_ticket t2 ∧
      generar_ticket t1 = "TKT-".data ++ pyUpper ((hexdigest (strBytes t1)).take 8) := by
  subst h
  exact ⟨rfl, rfl⟩

/-- Witness for `c9_ticket_deterministic` at a concrete timestamp. -/
theorem c9_ticket_deterministic_witness :
    generar_ticket tsW = generar_ticket tsW ∧
      generar_ticket tsW = "TKT-".data ++ pyUpper ((hexdigest (strBytes tsW)).take 8) :=
  c9_ticket_deterministic tsW tsW rfl

/-- C6 (corrected): the create handler returns a validation error with no
store access when the primary plate or driver is the empty string, or the
registrar name is blank after trimming. -/
theorem c6_validation_rules (store : List Registro) (req : Request)
    (h : req.placa_tracto = [] ∨ req.chofer = [] ∨ pyStrip req.registrado_por = []) :
    (create store req).1 = CreateResult.validationError ∧
      (create store req).2.1 = store ∧ (create store req).2.2 = 0 := by
  by_cases h1 : req.placa_tracto = [] ∨ req.chofer = []
  · simp [create, h1]
  · have h2 : pyStrip req.registrado_por = [] := by
      rcases h with h | h | h
      · exact absurd (Or.inl h) h1
      · exact absurd (Or.inr h) h1
      · exact h
    simp [create, h1, h2]

/-- Witness for `c6_validation_rules` on an all-empty request. -/
theorem c6_validation_rules_witness :
    (create [] reqEmpty).1 = CreateResult.validationError ∧
      (create [] reqEmpty).2.1 = [] ∧ (create [] reqEmpty).2.2 = 0 :=
  c6_validation_rules [] reqEmpty (Or.inl rfl)

/-- C6 counterexample: a blank (whitespace-only) primary plate passes the
falsiness check, so create reads the store and succeeds instead of returning
a validation error. -/
theorem c6_counterexample :
    pyStrip reqBlank.placa_tracto = [] ∧
      (create [] reqBlank).1 = CreateResult.success ∧
      (create [] reqBlank).2.2 = 1 := by decide

/-- C3: the create handler recomputes the remaining capacity from a fresh
read of the store (one read, performed inside the call); remaining <= 0
yields SlotFullError with no write; every failure path leaves the store
unchanged; success appends exactly one new row. -/
theorem c3_create_commit (store : List Registro) (req : Request) :
    ((create store req).1 = CreateResult.success →
        (create store req).2.1 = store ++ [aposFixRow (mkData req)]) ∧
      ((create store req).1 ≠ CreateResult.success →
        (create store req).2.1 = store) ∧
      (¬(req.placa_tracto = [] ∨ req.chofer = []) →
        pyStrip req.registrado_por ≠ [] →
        (create store req).2.2 = 1 ∧
          (cupos_disponibles (read_all store) req.fecha_str req.turno_sel
              req.cap_sel ≤ 0 →
            (create store req).1 = CreateResult.slotFull ∧
              (create store req).2.1 = store)) := by
  by_cases h1 : req.placa_tracto = [] ∨ req.chofer = []
  · simp [create, h1]
  · by_cases h2 : pyStrip req.registrado_por = []
    · simp [create, h1, h2]
    · by_cases h3 : cupos_disponibles (read_all store) req.fecha_str
          req.turno_sel req.cap_sel ≤ 0
      · simp [create, h1, h2, h3]
      · simp [create, h1, h2, h3, append_cita]

/-- Witness for `c3_create_commit`: a successful concrete registration
appends exactly one row after one fresh read. -/
theorem c3_create_commit_witness :
    (create [] reqW).2.1 = [] ++ [aposFixRow (mkData reqW)] ∧
      (create [] reqW).2.2 = 1 := by
  refine ⟨(c3_create_commit [] reqW).1 (by decide), ?_⟩
  exact ((c3_create_commit [] reqW).2.2 (by decide) (by decide)).1

/-- C10: on every successful create, the stored row's plate fields are the
caller input trimmed and uppercased, the status is exactly "EN COLA" and
hora_cita is the empty string. -/
theorem c10_stored_record_fields (store : List Registro) (req : Request)
    (h : (create store req).1 = CreateResult.success) :
    (create store req).2.1 = store ++ [aposFixRow (mkData req)] ∧
      (aposFixRow (mkData req)).placa_tracto = pyUpper (pyStrip req.placa_tracto) ∧
      (aposFixRow (mkData req)).placa_carreta = pyUpper (pyStrip req.placa_carreta) ∧
      (aposFixRow (mkData req)).estado = enCola ∧
      (aposFixRow (mkData req)).hora_cita = [] := by
  refine ⟨(c3_create_commit store req).1 h, rfl, rfl, rfl, rfl⟩

/-- Witness for `c10_stored_record_fields` on a concrete successful create. -/
theorem c10_stored_record_fields_witness :
    (create [] reqW).2.1 = [] ++ [aposFixRow (mkData reqW)] ∧
      (aposFixRow (mkData reqW)).placa_tracto = pyUpper (pyStrip reqW.placa_tracto) ∧
      (aposFixRow (mkData reqW)).placa_carreta = pyUpper (pyStrip reqW.placa_carreta) ∧
      (aposFixRow (mkData reqW)).estado = enCola ∧
      (aposFixRow (mkData reqW)).hora_cita = [] :=
  c10_stored_record_fields [] reqW (by decide)

/-- C7 (corrected): the admin save resolves all changes from one read and
then issues one single-cell `update_cell` write per changed ticket (not one
batched write); each such write changes at most the one addressed row. -/
theorem c7_one_write_per_change (store : List Registro) (edits : List (Str × Str)) :
    (guardar_cambios store edits).2 = (resolveCambios store edits).length ∧
      (guardar_cambios store edits).1 =
        (resolveCambios store edits).foldl
          (fun s c => update_estado_por_row s c.1 c.2) store ∧
      ∀ s rn nv, (update_estado_por_row s rn nv).length = s.length ∧
        ∀ j, j ≠ rn - 2 →
          (update_estado_por_row s rn nv).getD j default = s.getD j default := by
  refine ⟨rfl, rfl, fun s rn nv => ⟨setEstadoAt_length s (rn - 2) nv, ?_⟩⟩
  intro j hj
  exact setEstadoAt_getD s (rn - 2) nv j hj

/-- Witness for `c7_one_write_per_change`: two edits produce two cell
writes, and a single write leaves the other row untouched. -/
theorem c7_one_write_per_change_witness :
    (guardar_cambios storeTwo editsTwo).2 = 2 ∧
      (update_estado_por_row storeTwo 2 cancelado).getD 1 default =
        storeTwo.getD 1 default := by
  constructor
  · rw [(c7_one_write_per_change storeTwo editsTwo).1]
    decide
  · exact ((c7_one_write_per_change storeTwo editsTwo).2.2 storeTwo 2
      cancelado).2 1 (by decide)

/-- C7 counterexample: saving two status changes issues two store writes,
not a single batched write. -/
theorem c7_counterexample :
    (guardar_cambios storeTwo editsTwo).2 = 2 ∧
      (guardar_cambios storeTwo editsTwo).2 ≠ 1 := by decide

/-- C5: `turnos_disponibles` is exactly the catalog slots of the date's
weekday, in catalog order, each paired with its remaining count, filtered to
those with remaining strictly positive; in particular it never includes a
slot whose remaining count is zero. -/
theorem c5_available_slots (df : List Registro) (fecha_dt : Fecha) (fecha_str : Str) :
    turnos_disponibles df fecha_dt fecha_str =
      ((turnos_para_fecha fecha_dt).map (fun t =>
          (t.turno, t.horario, cupos_disponibles df fecha_str t.turno t.capacidad,
            t.capacidad))).filter (fun x => decide (0 < x.2.2.1)) ∧
      ∀ x ∈ turnos_disponibles df fecha_dt fecha_str, 0 < x.2.2.1 := by
  have key : ∀ l : List Turno,
      l.filterMap (fun t =>
        if 0 < cupos_disponibles df fecha_str t.turno t.capacidad then
          some (t.turno, t.horario,
            cupos_disponibles df fecha_str t.turno t.capacidad, t.capacidad)
        else none) =
      (l.map (fun t =>
          (t.turno, t.horario, cupos_disponibles df fecha_str t.turno t.capacidad,
            t.capacidad))).filter (fun x => decide (0 < x.2.2.1)) := by
    intro l
    induction l with
    | nil => rfl
    | cons t ts ih =>
      by_cases h : 0 < cupos_disponibles df fecha_str t.turno t.capacidad
      · simp [List.filterMap_cons, List.filter_cons, h, ih]
      · simp [List.filterMap_cons, List.filter_cons, h, ih]
  constructor
  · unfold turnos_disponibles
    exact key _
  · intro x hx
    unfold turnos_disponibles at hx
    rw [key] at hx
    have hmem := List.of_mem_filter hx
    simpa using hmem

/-- Witness for `c5_available_slots` at a concrete store and date. -/
theorem c5_available_slots_witness :
    turnos_disponibles [regA] fechaLunes fechaQ =
      ((turnos_para_fecha fechaLunes).map (fun t =>
          (t.turno, t.horario, cupos_disponibles [regA] fechaQ t.turno t.capacidad,
            t.capacidad))).filter (fun x => decide (0 < x.2.2.1)) ∧
      ∀ x ∈ turnos_disponibles [regA] fechaLunes fechaQ, 0 < x.2.2.1 :=
  c5_available_slots [regA] fechaLunes fechaQ


/-- Dropping a prefix on which the predicate holds everywhere. -/
lemma dropWhile_append_all {p : Char → Bool} : ∀ (w s : Str),
    (∀ c ∈ w, p c = true) → List.dropWhile p (w ++ s) = List.dropWhile p s := by
  intro w
  induction w with
  | nil => intro s _; rfl
  | cons c w ih =>
    intro s h
    rw [List.cons_append, List.dropWhile_cons_of_pos (h c (by simp))]
    exact ih s (fun d hd => h d (by simp [hd]))

/-- `dropWhile` empties a list on which the predicate holds everywhere. -/
lemma dropWhile_all_nil {p : Char → Bool} (w : Str) (h : ∀ c ∈ w, p c = true) :
    List.dropWhile p w = [] := by
  have hw := dropWhile_append_all w [] h
  simpa using hw

/-- If `dropWhile` fixes a cons, its head fails the predicate. -/
lemma head_false_of_dropWhile_self {p : Char → Bool} {c : Char} {l : Str}
    (h : List.dropWhile p (c :: l) = c :: l) : p c = false := by
  by_cases hc : p c = true
  · rw [List.dropWhile_cons_of_pos hc] at h
    have hlen := congrArg List.length h
    have hle := (List.dropWhile_sublist (l := l) p).length_le
    simp at hlen
    omega
  · simpa using hc

/-- Trailing whitespace is removed by `trimRight`. -/
lemma trimRight_append_all (s w : Str) (h : AllWs w) :
    trimRight (s ++ w) = trimRight s := by
  unfold trimRight
  rw [List.reverse_append,
    dropWhile_append_all _ _ (fun c hc => h c (List.mem_reverse.mp hc))]

/-- A left-trimmed non-empty value stays left-trimmed under a right context. -/
lemma trimLeft_append_left (v s : Str) (hv : trimLeft v = v) (hne : v ≠ []) :
    trimLeft (v ++ s) = v ++ s := by
  unfold trimLeft at hv ⊢
  cases v with
  | nil => exact absurd rfl hne
  | cons c l =>
    have hc : isPyWs c = false := head_false_of_dropWhile_self hv
    rw [List.cons_append, List.dropWhile_cons_of_neg (by simp [hc])]

/-- A right-trimmed non-empty value stays right-trimmed under a left context. -/
lemma trimRight_left_append (u v : Str) (hv : trimRight v = v) (hne : v ≠ []) :
    trimRight (u ++ v) = u ++ v := by
  unfold trimRight at hv ⊢
  have hfix : v.reverse.dropWhile isPyWs = v.reverse := by
    have hr := congrArg List.reverse hv
    rwa [List.reverse_reverse] at hr
  rw [List.reverse_append]
  cases hrev : v.reverse with
  | nil => exact absurd (List.reverse_eq_nil_iff.mp hrev) hne
  | cons c l =>
    have hc : isPyWs c = false := by
      apply head_false_of_dropWhile_self
      rw [← hrev]
      exact hfix
    rw [List.cons_append, List.dropWhile_cons_of_neg (by simp [hc]),
      ← List.cons_append, ← hrev, ← List.reverse_append, List.reverse_reverse]

/-- The apostrophe marker is not whitespace. -/
lemma aposNotWs : isPyWs apos = false := by decide

/-- `trimRight` fixes a non-empty run of apostrophes. -/
lemma trimRight_all_apos (j : Nat) :
    trimRight (List.replicate (j + 1) apos) = List.replicate (j + 1) apos := by
  unfold trimRight
  rw [List.reverse_replicate, List.replicate_succ,
    List.dropWhile_cons_of_neg (by simp [aposNotWs]), ← List.replicate_succ,
    List.reverse_replicate]

/-- A value with no surrounding whitespace is a `pyStrip` fixed point. -/
lemma pyStrip_eq_self (v : Str) (h1 : trimLeft v = v) (h2 : trimRight v = v) :
    pyStrip v = v := by
  unfold pyStrip
  rw [h1, h2]

/-- Stripping a decorated value keeps the apostrophe run and the clean value. -/
lemma pyStrip_decor (w1 w2 v : Str) (k : Nat) (hw1 : AllWs w1) (hw2 : AllWs w2)
    (h1 : trimLeft v = v) (h2 : trimRight v = v) :
    pyStrip (w1 ++ (List.replicate k apos ++ (v ++ w2))) =
      List.replicate k apos ++ v := by
  unfold pyStrip
  have hTL : trimLeft (w1 ++ (List.replicate k apos ++ (v ++ w2))) =
      trimLeft (List.replicate k apos ++ (v ++ w2)) := dropWhile_append_all w1 _ hw1
  rw [hTL]
  cases k with
  | zero =>
    rw [List.replicate_zero, List.nil_append, List.nil_append]
    cases hv : v with
    | nil =>
      subst hv
      rw [List.nil_append]
      show trimRight (trimLeft w2) = []
      unfold trimLeft
      rw [dropWhile_all_nil w2 hw2]
      rfl
    | cons c l =>
      subst hv
      rw [trimLeft_append_left (c :: l) w2 h1 (by simp),
        trimRight_append_all (c :: l) w2 hw2, h2]
  | succ j =>
    rw [List.replicate_succ, List.cons_append]
    show trimRight (trimLeft (apos :: (List.replicate j apos ++ (v ++ w2)))) =
      apos :: List.replicate j apos ++ v
    unfold trimLeft
    rw [List.dropWhile_cons_of_neg (by simp [aposNotWs])]
    by_cases hv : v = []
    · subst hv
      rw [List.nil_append, ← List.cons_append, ← List.replicate_succ,
        trimRight_append_all _ w2 hw2, trimRight_all_apos j, List.replicate_succ]
      simp
    · rw [← List.cons_append, ← List.replicate_succ, ← List.append_assoc,
        trimRight_append_all _ w2 hw2, trimRight_left_append _ v h2 hv,
        List.replicate_succ]

/-- Normalising a decorated date recovers the clean value. -/
lemma norm_date_decor (w1 w2 v : Str) (k : Nat) (hw1 : AllWs w1) (hw2 : AllWs w2)
    (hv : CleanFechaStr v) :
    _norm_date_text (w1 ++ (List.replicate k apos ++ (v ++ w2))) = v := by
  unfold _norm_date_text _norm_str
  rw [pyStrip_decor w1 w2 v k hw1 hw2 hv.1 hv.2.1]
  unfold dropApos
  rw [dropWhile_append_all _ _ (fun c hc => by
    have hz : c = apos := List.eq_of_mem_replicate hc
    simp [hz])]
  have hda : List.dropWhile (fun c => c == apos) v = v := hv.2.2
  rw [hda]
  exact pyStrip_eq_self v hv.1 hv.2.1

/-- Normalising a whitespace-decorated slot name recovers the clean value. -/
lemma norm_str_decor (w1 w2 v : Str) (hw1 : AllWs w1) (hw2 : AllWs w2)
    (hv : CleanTurnoStr v) : _norm_str (w1 ++ (v ++ w2)) = v := by
  unfold _norm_str
  have hd := pyStrip_decor w1 w2 v 0 hw1 hw2 hv.1 hv.2
  simpa using hd

/-- Normalisation fixes a clean date value. -/
lemma norm_date_clean (v : Str) (hv : CleanFechaStr v) : _norm_date_text v = v := by
  have hd := norm_date_decor [] [] v 0 (by intro c hc; cases hc)
    (by intro c hc; cases hc) hv
  simpa using hd

/-- Normalisation fixes a clean slot-name value. -/
lemma norm_str_clean (v : Str) (hv : CleanTurnoStr v) : _norm_str v = v := by
  have hd := norm_str_decor [] [] v (by intro c hc; cases hc)
    (by intro c hc; cases hc) hv
  simpa using hd

/-- Head decomposition of the non-cancelled matching count. -/
lemma usadosEn_cons (r : Registro) (df : List Registro) (f t : Str) :
    usadosEn (r :: df) f t =
      (if matchesFechaTurno f t r && !(r.estado == cancelado) then 1 else 0) +
        usadosEn df f t := by
  cases h1 : matchesFechaTurno f t r <;> cases h2 : r.estado == cancelado <;>
    simp [usadosEn, List.filter_cons, h1, h2, Nat.add_comm]

/-- Appending one row adds its own contribution to the count. -/
lemma usadosEn_append_single (df : List Registro) (r : Registro) (f t : Str) :
    usadosEn (df ++ [r]) f t =
      usadosEn df f t +
        (if matchesFechaTurno f t r && !(r.estado == cancelado) then 1 else 0) := by
  cases h1 : matchesFechaTurno f t r <;> cases h2 : r.estado == cancelado <;>
    simp [usadosEn, List.filter_append, List.filter_cons, h1, h2]

/-- The count depends on the query only through the normalised values. -/
lemma usadosEn_congr (df : List Registro) (f1 f2 t1 t2 : Str)
    (hf : _norm_date_text f1 = _norm_date_text f2)
    (ht : _norm_str t1 = _norm_str t2) :
    usadosEn df f1 t1 = usadosEn df f2 t2 := by
  unfold usadosEn matchesFechaTurno
  rw [hf, ht]

/-- Decorated rows and decorated query values produce the same count as the
clean rows and clean query values. -/
lemma usados_decor : ∀ {df' df : List Registro}, List.Forall₂ RowDecor df' df →
    (∀ r ∈ df, CleanFechaStr r.fecha_cita ∧ CleanTurnoStr r.turno) →
    ∀ {f' f t' t : Str}, FechaDecor f' f → CleanFechaStr f →
      TurnoDecor t' t → CleanTurnoStr t →
      usadosEn df' f' t' = usadosEn df f t := by
  intro df' df hall
  induction hall with
  | nil =>
    intro _ f' f t' t _ _ _ _
    rfl
  | @cons a b l1 l2 hpair hrest ih =>
    intro hclean f' f t' t hf hcf ht hct
    obtain ⟨hfd, htd, hes⟩ := hpair
    have hcb := hclean b (by simp)
    have hmatch : matchesFechaTurno f' t' a = matchesFechaTurno f t b := by
      unfold matchesFechaTurno
      obtain ⟨w1, k, w2, hw1, hw2, hraw⟩ := hfd
      obtain ⟨u1, u2, hu1, hu2, hturnoraw⟩ := htd
      obtain ⟨q1, kq, q2, hq1, hq2, hfq⟩ := hf
      obtain ⟨p1, p2, hp1, hp2, htq⟩ := ht
      rw [hraw, hturnoraw, hfq, htq]
      rw [norm_date_decor w1 w2 _ k hw1 hw2 hcb.1,
        norm_str_decor u1 u2 _ hu1 hu2 hcb.2,
        norm_date_decor q1 q2 f kq hq1 hq2 hcf,
        norm_str_decor p1 p2 t hp1 hp2 hct,
        norm_date_clean _ hcb.1, norm_str_clean _ hcb.2,
        norm_date_clean f hcf, norm_str_clean t hct]
    rw [usadosEn_cons, usadosEn_cons, hmatch, hes,
      ih (fun r hr => hclean r (by simp [hr])) hf hcf ht hct]

/-- C8 (corrected): `cupos_disponibles` is invariant under the store's
formatting artifacts — surrounding whitespace on dates and slot names and
leading apostrophe markers on dates — in the records and in the query
arguments.  (Apostrophe markers on slot names are NOT removed; see the
counterexample.) -/
theorem c8_normalization_invariance (df' df : List Registro) (f' f t' t : Str)
    (cap : Int) (hall : List.Forall₂ RowDecor df' df)
    (hclean : ∀ r ∈ df, CleanFechaStr r.fecha_cita ∧ CleanTurnoStr r.turno)
    (hf : FechaDecor f' f) (hcf : CleanFechaStr f)
    (ht : TurnoDecor t' t) (hct : CleanTurnoStr t) :
    cupos_disponibles df' f' t' cap = cupos_disponibles df f t cap := by
  unfold cupos_disponibles
  by_cases hdf : df' = []
  · subst hdf
    cases hall
    simp
  · have hdf2 : df ≠ [] := by
      intro h0
      subst h0
      cases hall
      exact hdf rfl
    rw [if_neg hdf, if_neg hdf2,
      usados_decor hall hclean hf hcf ht hct]

/-- C8 counterexample: a leading apostrophe marker on a stored slot name is
not normalised away, so the remaining count differs from the count on the
normalised record. -/
theorem c8_counterexample :
    cupos_disponibles [regAposTurno] fechaQ turnoQ 4 = 4 ∧
      cupos_disponibles [regA] fechaQ turnoQ 4 = 3 ∧
      regAposTurno = { regA with turno := apos :: regA.turno } := by decide

/-- Witness for `c8_normalization_invariance` on concretely decorated data. -/
theorem c8_normalization_invariance_witness :
    cupos_disponibles [regDecor] fechaQDecor turnoQDecor 4 =
      cupos_disponibles [regA] fechaQ turnoQ 4 := by
  apply c8_normalization_invariance
  · exact List.Forall₂.cons
      ⟨⟨" ".data, 1, " ".data, by decide, by decide, rfl⟩,
        ⟨" ".data, " ".data, by decide, by decide, rfl⟩, rfl⟩
      List.Forall₂.nil
  · intro r hr
    have hrA : r = regA := by simpa using hr
    subst hrA
    exact ⟨by decide, by decide⟩
  · exact ⟨[], 1, [], by decide, by decide, rfl⟩
  · decide
  · exact ⟨" ".data, " ".data, by decide, by decide, rfl⟩
  · decide

/-- Normalisation fixes the CANCELADO literal. -/
lemma norm_cancelado : _norm_str cancelado = cancelado := by decide

/-- Normalisation fixes the EN COLA literal. -/
lemma norm_encola : _norm_str enCola = enCola := by decide

/-- Every catalog slot name is clean. -/
lemma turnos_base_clean : ∀ t ∈ TURNOS_BASE, CleanTurnoStr t.turno := by decide

/-- Every catalog capacity is non-negative. -/
lemma turnos_base_cap_nonneg : ∀ t ∈ TURNOS_BASE, 0 ≤ t.capacidad := by decide

/-- Catalog slot names determine their capacities. -/
lemma turnos_base_cap_eq : ∀ t ∈ TURNOS_BASE, ∀ u ∈ TURNOS_BASE,
    t.turno = u.turno → t.capacidad = u.capacidad := by decide

/-- A positive remaining capacity bounds the used count strictly. -/
lemma cupos_pos_usados (df : List Registro) (f t : Str) (cap : Int)
    (h : 0 < cupos_disponibles df f t cap) : (usadosEn df f t : Int) < cap := by
  unfold cupos_disponibles at h
  by_cases hdf : df = []
  · subst hdf
    rw [if_pos rfl] at h
    have h0 : usadosEn ([] : List Registro) f t = 0 := rfl
    rw [h0]
    push_cast
    exact h
  · rw [if_neg hdf] at h
    rcases lt_max_iff.mp h with h0 | h1
    · exact absurd h0 (lt_irrefl 0)
    · linarith

/-- Cancelling one row never increases the non-cancelled matching count. -/
lemma cancel_usados_le (f t : Str) : ∀ (s : List Registro) (i : Nat),
    usadosEn (read_all (setEstadoAt s i cancelado)) f t ≤
      usadosEn (read_all s) f t := by
  intro s
  induction s with
  | nil => intro i; exact le_refl _
  | cons r rest ih =>
    intro i
    cases i with
    | zero =>
      show usadosEn (read_all ({ r with estado := cancelado } :: rest)) f t ≤ _
      rw [show read_all ({ r with estado := cancelado } :: rest) =
          normRow { r with estado := cancelado } :: read_all rest from rfl]
      rw [show read_all (r :: rest) = normRow r :: read_all rest from rfl]
      rw [usadosEn_cons, usadosEn_cons]
      have he : (normRow { r with estado := cancelado }).estado = cancelado :=
        norm_cancelado
      have hcontrib :
          (if matchesFechaTurno f t (normRow { r with estado := cancelado }) &&
              !((normRow { r with estado := cancelado }).estado == cancelado)
            then 1 else 0) = 0 := by
        rw [he]
        simp
      rw [hcontrib]
      simp only [Nat.zero_add]
      exact Nat.le_add_left (usadosEn (read_all rest) f t)
        (if matchesFechaTurno f t (normRow r) && !((normRow r).estado == cancelado)
          then 1 else 0)
    | succ i =>
      show usadosEn (read_all (r :: setEstadoAt rest i cancelado)) f t ≤ _
      rw [show read_all (r :: setEstadoAt rest i cancelado) =
          normRow r :: read_all (setEstadoAt rest i cancelado) from rfl]
      rw [show read_all (r :: rest) = normRow r :: read_all rest from rfl]
      rw [usadosEn_cons, usadosEn_cons]
      exact Nat.add_le_add_left (ih i) _

/-- One operation preserves the per-slot capacity bound. -/
lemma step_preserves (s : List Registro) (op : Op)
    (hok : ∀ req, op = Op.create req → ReqOK req)
    (hs : ∀ f : Str, ∀ t ∈ TURNOS_BASE,
      (usadosEn (read_all s) f t.turno : Int) ≤ t.capacidad) :
    ∀ f : Str, ∀ t ∈ TURNOS_BASE,
      (usadosEn (read_all (step s op)) f t.turno : Int) ≤ t.capacidad := by
  cases op with
  | cancel rn =>
    intro f t ht
    show (usadosEn (read_all (update_estado_por_row s rn cancelado)) f t.turno : Int) ≤ _
    have hle := cancel_usados_le f t.turno s (rn - 2)
    exact le_trans (by exact_mod_cast hle) (hs f t ht)
  | create req =>
    obtain ⟨hcleanf, t0, ht0, hturno, hcap⟩ := hok req rfl
    by_cases h1 : req.placa_tracto = [] ∨ req.chofer = []
    · have hst : step s (Op.create req) = s := by simp [step, create, h1]
      rw [hst]
      exact hs
    · by_cases h2 : pyStrip req.registrado_por = []
      · have hst : step s (Op.create req) = s := by simp [step, create, h1, h2]
        rw [hst]
        exact hs
      · by_cases h3 : cupos_disponibles (read_all s) req.fecha_str req.turno_sel
            req.cap_sel ≤ 0
        · have hst : step s (Op.create req) = s := by simp [step, create, h1, h2, h3]
          rw [hst]
          exact hs
        · have hst : step s (Op.create req) = append_cita s (mkData req) := by
            simp [step, create, h1, h2, h3]
          rw [hst]
          have husado := cupos_pos_usados (read_all s) req.fecha_str req.turno_sel
            req.cap_sel (not_le.mp h3)
          intro f t ht
          have hrowf : (normRow (aposFixRow (mkData req))).fecha_cita = req.fecha_str := by
            show _norm_date_text (lstripAposIfNonempty req.fecha_str) = req.fecha_str
            have hl : lstripAposIfNonempty req.fecha_str = req.fecha_str := by
              unfold lstripAposIfNonempty
              by_cases hemp : req.fecha_str = []
              · rw [if_pos hemp]
              · rw [if_neg hemp]
                exact hcleanf.2.2
            rw [hl]
            exact norm_date_clean _ hcleanf
          have hct0 : CleanTurnoStr t0.turno := turnos_base_clean t0 ht0
          have hrowt : (normRow (aposFixRow (mkData req))).turno = t0.turno := by
            show _norm_str req.turno_sel = t0.turno
            rw [hturno]
            exact norm_str_clean _ hct0
          rw [show read_all (append_cita s (mkData req)) =
              read_all s ++ [normRow (aposFixRow (mkData req))] by
            simp [read_all, append_cita]]
          rw [usadosEn_append_single]
          cases hcond : matchesFechaTurno f t.turno (normRow (aposFixRow (mkData req))) &&
              !((normRow (aposFixRow (mkData req))).estado == cancelado) with
          | false =>
            simpa using hs f t ht
          | true =>
            have hm : matchesFechaTurno f t.turno (normRow (aposFixRow (mkData req))) = true := by
              cases hmm : matchesFechaTurno f t.turno (normRow (aposFixRow (mkData req)))
              · rw [hmm] at hcond
                simp at hcond
              · rfl
            unfold matchesFechaTurno at hm
            rw [Bool.and_eq_true] at hm
            obtain ⟨hmf, hmt⟩ := hm
            have hmf2 : _norm_date_text (normRow (aposFixRow (mkData req))).fecha_cita =
                _norm_date_text f := eq_of_beq hmf
            have hmt2 : _norm_str (normRow (aposFixRow (mkData req))).turno =
                _norm_str t.turno := eq_of_beq hmt
            have hf1 : req.fecha_str = _norm_date_text f := by
              calc req.fecha_str = _norm_date_text req.fecha_str :=
                    (norm_date_clean _ hcleanf).symm
                _ = _norm_date_text (normRow (aposFixRow (mkData req))).fecha_cita := by
                    rw [hrowf]
                _ = _norm_date_text f := hmf2
            have hct : CleanTurnoStr t.turno := turnos_base_clean t ht
            have ht1 : t0.turno = t.turno := by
              calc t0.turno = _norm_str t0.turno := (norm_str_clean _ hct0).symm
                _ = _norm_str (normRow (aposFixRow (mkData req))).turno := by rw [hrowt]
                _ = _norm_str t.turno := hmt2
                _ = t.turno := norm_str_clean _ hct
            have hcapeq : t0.capacidad = t.capacidad :=
              turnos_base_cap_eq t0 ht0 t ht ht1
            have hcount : usadosEn (read_all s) f t.turno =
                usadosEn (read_all s) req.fecha_str req.turno_sel := by
              apply usadosEn_congr
              · rw [norm_date_clean _ hcleanf]
                exact hf1.symm
              · rw [hturno, norm_str_clean _ hct, norm_str_clean _ hct0]
                exact ht1.symm
            have hq : (usadosEn (read_all s) f t.turno : Int) < t.capacidad := by
              rw [hcount, ← hcapeq, ← hcap]
              exact husado
            rw [if_pos rfl]
            push_cast
            push_cast at hq
            omega

/-- Any valid operation sequence preserves the per-slot capacity bound. -/
lemma run_preserves (ops : List Op) : ∀ (s : List Registro),
    (∀ req, Op.create req ∈ ops → ReqOK req) →
    (∀ f : Str, ∀ t ∈ TURNOS_BASE,
      (usadosEn (read_all s) f t.turno : Int) ≤ t.capacidad) →
    ∀ f : Str, ∀ t ∈ TURNOS_BASE,
      (usadosEn (read_all (ops.foldl step s)) f t.turno : Int) ≤ t.capacidad := by
  induction ops with
  | nil =>
    intro s _ hs
    simpa using hs
  | cons op rest ih =>
    intro s hok hs
    rw [List.foldl_cons]
    apply ih
    · intro req hmem
      exact hok req (List.mem_cons_of_mem _ hmem)
    · apply step_preserves s op
      · intro req heq
        apply hok
        rw [← heq]
        exact List.mem_cons_self _ _
      · exact hs

/-- C1: starting from the empty store, after any sequence of registrations
(through the create handler) and cancellations (through the status writer),
the number of stored bookings of each (date, slot) whose status is not
CANCELADO never exceeds the slot's catalog capacity. -/
theorem c1_capacity_invariant (ops : List Op)
    (hok : ∀ req, Op.create req ∈ ops → ReqOK req) :
    ∀ f : Str, ∀ t ∈ TURNOS_BASE,
      (usadosEn (read_all (run ops)) f t.turno : Int) ≤ t.capacidad := by
  apply run_preserves ops [] hok
  intro f t ht
  have h0 : usadosEn (read_all ([] : List Registro)) f t.turno = 0 := rfl
  rw [h0]
  have hc := turnos_base_cap_nonneg t ht
  push_cast
  exact hc

/-- Witness for `c1_capacity_invariant` on a concrete operation sequence. -/
theorem c1_capacity_invariant_witness :
    (∀ req, Op.create req ∈ opsW → ReqOK req) ∧
      ∀ f : Str, ∀ t ∈ TURNOS_BASE,
        (usadosEn (read_all (run opsW)) f t.turno : Int) ≤ t.capacidad := by
  have hok : ∀ req, Op.create req ∈ opsW → ReqOK req := by
    intro req hmem
    have hrw : req = reqW := by
      simp [opsW] at hmem
      exact hmem
    subst hrw
    decide
  exact ⟨hok, c1_capacity_invariant opsW hok⟩

set_option maxRecDepth 10000 in
/-- Sanity check of the SHA-1 embedding against the standard test vector. -/
theorem sha1_test_vector :
    hexdigest (strBytes ( "abc".data )) =
      "a9993e364706816aba3e25717850c26c9cd0d89d".data := by decide
